import Mathlib

/-!
Verification of the estimate-generator application core against its
specification.

Embedding conventions:
* All monetary quantities are non-negative integers, embedded as `Nat`
  (the data model declares `quantity`, `price` as integers ≥ 0).
* The source computes `Math.floor(x / 1.1)` and `Math.floor(x * 0.1)`
  in IEEE-754 doubles.  Division by 1.1 is embedded exactly as the
  hardware computes it (`jsFloorDiv11`, see the totals section): the
  divisor is the double nearest 1.1 and the quotient is rounded to
  nearest, ties to even, which differs from the exact rational
  `floor(x/1.1)` at many inputs (1100/1.1 floors to 999, not 1000).
  `Math.floor(x * 0.1)` agrees with `x / 10` for every integer
  `x < 2^53`, so the aggregate tax step is embedded as `x / 10`;
  integer sums, differences and products below 2^53 are exact in
  doubles and embedded as `Nat` arithmetic.
* JavaScript arrays become `List`, objects with optional patch fields
  become structures of `Option` fields (`none` = field absent from the
  patch), and the browser/KV stores become explicit state threaded
  through the functions.
-/

/-! ## Data model (src/types/estimate.ts) -/

inductive TaxOption where
  | including
  | excluding
deriving DecidableEq

structure Item where
  name : String
  quantity : Nat
  price : Nat
  spec : String
  note : String
deriving DecidableEq

structure Client where
  name : String
  phone : String
  email : String
  address : String
deriving DecidableEq

structure Supplier where
  name : String
  companyName : String
  address : String
  businessType : String
  businessItem : String
  phone : String
  fax : String
  businessNumber : String
  companyEmail : String
  accountNumber : String
  homepage : String
  logo : Option String
  businessFields : String
  footerNotes : String
deriving DecidableEq

structure EstimateData where
  estimateNumber : String
  estimateDate : String
  constructionStartDate : String
  constructionEndDate : String
  constructionDate : String
  client : Client
  clientName : String
  clientPhone : String
  clientEmail : String
  supplier : Supplier
  items : List Item
  taxOption : TaxOption
  businessFields : String
  footerNotes : String
deriving DecidableEq

/-- A `Partial<Client>` patch: `none` models a field absent from the patch
(or supplied as `undefined`). -/
structure PartialClient where
  name : Option String
  phone : Option String
  email : Option String
  address : Option String
deriving DecidableEq

/-- A `Partial<Item>` patch. -/
structure PartialItem where
  name : Option String
  quantity : Option Nat
  price : Option Nat
  spec : Option String
  note : Option String
deriving DecidableEq

/-! ## IEEE-754 arithmetic of the totals engine

The source computes `Math.floor(item.price / 1.1)` (and, in the
part_003 preview, `Math.floor(quantity*price / 1.1)`) in IEEE-754
double precision.  The literal 1.1 is not representable: the double
actually used is `4953959590107546 * 2^(-52)`, and the division is
correctly rounded to nearest, ties to even, so the result differs from
the exact rational `floor(p/1.1)` at many integer inputs (price 33
gives 29, not 30; price 110 gives 99, not 100; price 1100 gives 999,
not 1000).  `jsFloorDiv11` reproduces the double computation exactly in
integer arithmetic for every dividend that is itself exactly
representable (p < 2^53, which covers the data model's integer inputs;
larger `Nat`s are treated as exact).  The other arithmetic of the
handlers stays exact at the same scale: integer sums, products and
differences below 2^53 are exact in doubles, and
`Math.floor(s * 0.1)` for an integer `s < 2^53` equals `s / 10`
(the rounded product `s * 0.1` lies strictly between `floor(s/10)` and
`floor(s/10) + 1` except at multiples of 10, where it lands on the
integer or within half an ulp above it), so the aggregate tax step is
embedded as `s / 10`. -/

/-- src/unnamed/part_000 lines 50-58 `updateClient`: shallow-merge the
patch into `client` and synchronize the legacy mirror fields with
`patch.x ?? prev.mirror`. -/
def updateClient (prev : EstimateData) (patch : PartialClient) : EstimateData :=
  { prev with
    client :=
      { name := patch.name.getD prev.client.name
        phone := patch.phone.getD prev.client.phone
        email := patch.email.getD prev.client.email
        address := patch.address.getD prev.client.address }
    clientName := patch.name.getD prev.clientName
    clientPhone := patch.phone.getD prev.clientPhone
    clientEmail := patch.email.getD prev.clientEmail }

/-- The client-side estimate-number sequence store
(`localStorage['estimateNumbers']`): a date-key-indexed counter map,
absent keys reading as 0 (`sequences[dateKey] || 0`). -/
abbrev SeqStore := String → Nat

/-- The date key: `date.replace` with a global hyphen pattern, i.e. the
date string with every hyphen removed. -/
def dateKeyOf (date : String) : String :=
  (date.data.filter (fun c => c != '-')).asString

/-- `String(n).padStart(3, '0')`. -/
def padStart3 (s : String) : String :=
  if s.length ≥ 3 then s else (List.replicate (3 - s.length) '0').asString ++ s

/-- src/unnamed/part_001 lines 57-67 `generateEstimateNumber`: read the
per-date count, increment it, write it back, and return
`dateKey-paddedCount` together with the updated store. -/
def generateEstimateNumber (date : String) (sequences : SeqStore) : String × SeqStore :=
  let dateKey := dateKeyOf date
  let nextCount := sequences dateKey + 1
  (dateKey ++ "-" ++ padStart3 (toString nextCount),
    fun k => if k = dateKey then nextCount else sequences k)

/-- src/unnamed/part_000 lines 31-41 `updateField` in the
`field === 'estimateDate'` case: set the date and regenerate
`estimateNumber` from it. -/
def updateField_estimateDate (prev : EstimateData) (value : String) (store : SeqStore) :
    EstimateData × SeqStore :=
  let r := generateEstimateNumber value store
  ({ prev with estimateDate := value, estimateNumber := r.1 }, r.2)

/-- src/unnamed/part_001 lines 3-21 `DEFAULT_SUPPLIER`. -/
def DEFAULT_SUPPLIER : Supplier :=
  { name := "테스트"
    companyName := "오빠두엑셀"
    address := "서울 강남구 테헤란로 141-2"
    businessType := "전자상거래"
    businessItem := "온라인제품"
    phone := "02) 123-4848"
    fax := ""
    businessNumber := "123-01-01249"
    companyEmail := "info@oppadu.com"
    accountNumber := ""
    homepage := "www.oppadu.com"
    logo := none
    businessFields := "온라인 강의 • 오프라인 특강 • 기업 컨설팅 • 프로그램 보안/제작"
    footerNotes := "● 오빠두엑셀 (www.oppadu.com) 홈페이지에서 온라인으로 구매 확정해주세요.\n● 사업자등록증은 팩스 또는 이메일(info@oppadu.com)으로 전달 부탁드립니다.\n● 프로그램 라이선 필요시 제작기간 약 3~15일 소요 / 추가비용 부과됩니다.\n● 도시/산간지역의 경우 추가 배송비가 부과됩니다." }

/-- src/unnamed/part_001 lines 23-28 `EMPTY_CLIENT`. -/
def EMPTY_CLIENT : Client :=
  { name := "", phone := "", email := "", address := "" }

/-- src/unnamed/part_001 lines 77-92 `createInitialEstimate`: a fresh
document for the given date, with a freshly generated number, empty
client and items, the default supplier, and the default supplier's
business fields and footer notes. -/
def createInitialEstimate (date : String) (store : SeqStore) : EstimateData × SeqStore :=
  let r := generateEstimateNumber date store
  ({ estimateNumber := r.1
     estimateDate := date
     constructionStartDate := ""
     constructionEndDate := ""
     constructionDate := ""
     client := EMPTY_CLIENT
     clientName := ""
     clientPhone := ""
     clientEmail := ""
     supplier := DEFAULT_SUPPLIER
     items := []
     taxOption := TaxOption.excluding
     businessFields := DEFAULT_SUPPLIER.businessFields
     footerNotes := DEFAULT_SUPPLIER.footerNotes }, r.2)

/-- src/unnamed/part_001 lines 94-105 `hasMeaningfulEstimateData`
(string truthiness embedded as inequality with `""`). -/
def hasMeaningfulEstimateData (estimate : EstimateData) : Bool :=
  if estimate.items.length > 0 then true
  else if estimate.client.name != "" || estimate.client.phone != "" ||
      estimate.client.email != "" || estimate.client.address != "" then true
  else if estimate.constructionStartDate != "" || estimate.constructionEndDate != "" ||
      estimate.constructionDate != "" then true
  else if estimate.businessFields != DEFAULT_SUPPLIER.businessFields then true
  else if estimate.footerNotes != DEFAULT_SUPPLIER.footerNotes then true
  else false

/-- src/unnamed/part_000 lines 96-99 `resetEstimate`: replace the
document with a fresh one and clear the current-record identity. -/
def resetEstimate (date : String) (store : SeqStore) :
    (EstimateData × Option String) × SeqStore :=
  let r := createInitialEstimate date store
  ((r.1, none), r.2)

/-- src/unnamed/part_000 line 101 `hasDirtyState`. -/
def hasDirtyState (estimate : EstimateData) : Bool :=
  hasMeaningfulEstimateData estimate

/-! ## Claim theorems: state store -/

/-- Generic mirror-field lemma: if one `updateClient` step turns the
mirror read by `get` into `(sel patch).getD (previous mirror)`, then
after any sequence of calls the mirror equals the most recently
supplied non-`none` value of `sel`, falling back to the initial value. -/
theorem foldl_updateClient_mirror (get : EstimateData → String)
    (sel : PartialClient → Option String)
    (hstep : ∀ e p, get (updateClient e p) = (sel p).getD (get e)) :
    ∀ (ps : List PartialClient) (e0 : EstimateData),
      get (ps.foldl updateClient e0) = (ps.filterMap sel).getLastD (get e0) := by
  intro ps
  induction ps with
  | nil => intro e0; rfl
  | cons p t ih =>
      intro e0
      simp only [List.foldl_cons, List.filterMap_cons]
      rw [ih, hstep]
      cases hp : sel p with
      | none => rfl
      | some v => rw [List.getLastD_cons, Option.getD_some]

/-- C4.  For every starting document and every finite sequence of
`updateClient` patches, the legacy mirror fields `clientName`,
`clientPhone`, `clientEmail` equal the most recently supplied
non-`undefined` values of `patch.name`/`patch.phone`/`patch.email`,
and a field omitted from every patch retains the starting mirror
value (this also covers every prefix of a longer call sequence, since
the sequence is universally quantified). -/
theorem updateClient_mirror_sync (e0 : EstimateData) (ps : List PartialClient) :
    (ps.foldl updateClient e0).clientName =
        (ps.filterMap PartialClient.name).getLastD e0.clientName ∧
    (ps.foldl updateClient e0).clientPhone =
        (ps.filterMap PartialClient.phone).getLastD e0.clientPhone ∧
    (ps.foldl updateClient e0).clientEmail =
        (ps.filterMap PartialClient.email).getLastD e0.clientEmail := by
  refine ⟨?_, ?_, ?_⟩
  · exact foldl_updateClient_mirror EstimateData.clientName PartialClient.name
      (fun e p => rfl) ps e0
  · exact foldl_updateClient_mirror EstimateData.clientPhone PartialClient.phone
      (fun e p => rfl) ps e0
  · exact foldl_updateClient_mirror EstimateData.clientEmail PartialClient.email
      (fun e p => rfl) ps e0

/-- C5.  `updateField('estimateDate', d)` yields a document whose
`estimateNumber` is the hyphen-stripped date key, a dash, and the
incremented per-date count zero-padded to three digits; the store entry
for that key is incremented by exactly one; and a repeated call for the
same date uses the strictly larger count `+2`. -/
theorem updateField_estimateDate_number (prev : EstimateData) (d : String)
    (store : SeqStore) :
    ((updateField_estimateDate prev d store).1).estimateNumber =
        dateKeyOf d ++ "-" ++ padStart3 (toString (store (dateKeyOf d) + 1)) ∧
    (updateField_estimateDate prev d store).2 (dateKeyOf d) =
        store (dateKeyOf d) + 1 ∧
    ((updateField_estimateDate (updateField_estimateDate prev d store).1 d
          (updateField_estimateDate prev d store).2).1).estimateNumber =
        dateKeyOf d ++ "-" ++ padStart3 (toString (store (dateKeyOf d) + 2)) ∧
    (updateField_estimateDate (updateField_estimateDate prev d store).1 d
          (updateField_estimateDate prev d store).2).2 (dateKeyOf d) =
        store (dateKeyOf d) + 2 := by
  refine ⟨rfl, by simp [updateField_estimateDate, generateEstimateNumber], ?_, ?_⟩
  · simp [updateField_estimateDate, generateEstimateNumber]
  · simp [updateField_estimateDate, generateEstimateNumber]

/-- C10.  Immediately after `resetEstimate()`, the document is clean:
`hasDirtyState` is `false` (empty items, all-empty client fields, empty
construction dates, business fields and footer notes equal to the
default supplier's), and the current-record identity is cleared. -/
theorem resetEstimate_not_dirty (date : String) (store : SeqStore) :
    hasDirtyState ((resetEstimate date store).1.1) = false ∧
    (resetEstimate date store).1.2 = none := by
  constructor
  · simp [hasDirtyState, hasMeaningfulEstimateData, resetEstimate, createInitialEstimate,
      EMPTY_CLIENT]
  · rfl

/-! ## Item-list operations (src/unnamed/part_000 lines 64-94)

JavaScript indices may be any integer, so the index parameters are
embedded as `Int`.  `moveItem` uses `Array.prototype.splice`, whose
start argument is clamped (negative values count from the end, clamped
at 0; values past the end are clamped to the length) and which can
insert the `undefined` obtained from an out-of-range removal, so its
result is a list of `Option Item` (`none` = the JS `undefined`); the
unchanged-document case is `items.map some`.  All operations are total
functions, matching the filter/map/splice-based source, which cannot
throw. -/

/-- Shallow merge `\x7b ...existing, ...patch \x7d` for an item patch. -/
def mergeItem (existing : Item) (patch : PartialItem) : Item :=
  { name := patch.name.getD existing.name
    quantity := patch.quantity.getD existing.quantity
    price := patch.price.getD existing.price
    spec := patch.spec.getD existing.spec
    note := patch.note.getD existing.note }

/-- src/unnamed/part_000 lines 64-69 `removeItem`: keep every item whose
position differs from `index`. -/
def removeItem (index : Int) (items : List Item) : List Item :=
  (items.enum.filter (fun p => (p.1 : Int) != index)).map Prod.snd

/-- src/unnamed/part_000 lines 82-87 `updateItem`: merge the patch into
the item at `index`, leaving every other position unchanged. -/
def updateItem (index : Int) (patch : PartialItem) (items : List Item) : List Item :=
  items.enum.map (fun p => if (p.1 : Int) = index then mergeItem p.2 patch else p.2)

/-- `Array.prototype.splice` start normalization: negative starts count
from the end (clamped at 0), positive starts are clamped to the
length. -/
def spliceStart (start : Int) (len : Nat) : Nat :=
  if start < 0 then ((len : Int) + start).toNat else min start.toNat len

/-- src/unnamed/part_000 lines 71-80 `moveItem`: no-op when
`fromIdx = toIdx`; otherwise remove one element at `fromIdx` via splice
and reinsert the removed value (possibly the JS `undefined`) at
`toIdx`. -/
def moveItem (fromIdx toIdx : Int) (items : List Item) : List (Option Item) :=
  if fromIdx = toIdx then items.map some
  else
    let nextItems := items.map some
    let s := spliceStart fromIdx nextItems.length
    let removed := (nextItems.get? s).getD none
    let afterRemove := nextItems.take s ++ nextItems.drop (s + 1)
    let t := spliceStart toIdx afterRemove.length
    afterRemove.take t ++ [removed] ++ afterRemove.drop t

/-! ## Server handlers (src/unnamed/part_002)

Each handler is embedded as the pure core acting on the caller's
collection (the per-user KV entry), with the HTTP status made explicit.
The authentication prologue shared by all handlers is independent of
the collection logic and is not needed by the claims below. -/

/-- DELETE /suppliers/:companyName (lines 427-454): filter out matching
records and always report success (status 200) with the updated
collection. -/
def deleteSupplier (existingSuppliers : List Supplier) (companyName : String) :
    Nat × List Supplier :=
  (200, existingSuppliers.filter (fun s => s.companyName != companyName))

/-- DELETE /clients/:clientName (lines 457-484). -/
def deleteClient (existingClients : List Client) (clientName : String) :
    Nat × List Client :=
  (200, existingClients.filter (fun c => c.name != clientName))

/-- DELETE /item-templates/:name (lines 199-226). -/
def deleteItemTemplate (existingTemplates : List Item) (templateName : String) :
    Nat × List Item :=
  (200, existingTemplates.filter (fun t => t.name != templateName))

/-! ## Claim theorems: item-list safety and delete idempotence -/

/-- C9.  `removeItem` and `updateItem` with an out-of-range integer index
leave the item list unchanged, and `moveItem` with equal source and
target indices leaves the document unchanged; all three embedded
operations are total functions (the source uses only filter, map and
splice, none of which can throw). -/
theorem itemOps_out_of_range_noop :
    (∀ (index : Int) (items : List Item),
        (index < 0 ∨ (items.length : Int) ≤ index) → removeItem index items = items) ∧
    (∀ (index : Int) (patch : PartialItem) (items : List Item),
        (index < 0 ∨ (items.length : Int) ≤ index) → updateItem index patch items = items) ∧
    (∀ (i : Int) (items : List Item), moveItem i i items = items.map some) := by
  refine ⟨?_, ?_, ?_⟩
  · intro index items h
    unfold removeItem
    have hall : ∀ p ∈ items.enum, ((p.1 : Int) != index) = true := by
      intro p hp
      obtain ⟨i, x⟩ := p
      have hp' : (i, x) ∈ List.enumFrom 0 items := hp
      have hb := (List.mem_enumFrom hp').2.1
      simp only [bne_iff_ne, ne_eq]
      omega
    rw [List.filter_eq_self.mpr hall, List.enum_map_snd]
  · intro index patch items h
    unfold updateItem
    have hall : ∀ p ∈ items.enum,
        (if (p.1 : Int) = index then mergeItem p.2 patch else p.2) = Prod.snd p := by
      intro p hp
      obtain ⟨i, x⟩ := p
      have hp' : (i, x) ∈ List.enumFrom 0 items := hp
      have hb := (List.mem_enumFrom hp').2.1
      rw [if_neg]
      omega
    rw [List.map_congr_left hall, List.enum_map_snd]
  · intro i items
    simp [moveItem]

/-- C9 witness: a concrete out-of-range index (2 for a one-item list) and
a concrete `moveItem` with equal indices, discharged through the claim
theorem. -/
theorem itemOps_out_of_range_noop_witness :
    ((2 : Int) < 0 ∨ (([⟨"a", 1, 2, "EA", ""⟩] : List Item).length : Int) ≤ 2) ∧
    removeItem 2 [⟨"a", 1, 2, "EA", ""⟩] = [⟨"a", 1, 2, "EA", ""⟩] ∧
    updateItem 2 ⟨some "b", none, none, none, none⟩ [⟨"a", 1, 2, "EA", ""⟩] =
      [⟨"a", 1, 2, "EA", ""⟩] ∧
    moveItem 3 3 [⟨"a", 1, 2, "EA", ""⟩] = [some ⟨"a", 1, 2, "EA", ""⟩] :=
  ⟨by decide,
    itemOps_out_of_range_noop.1 2 [⟨"a", 1, 2, "EA", ""⟩] (by decide),
    itemOps_out_of_range_noop.2.1 2 ⟨some "b", none, none, none, none⟩
      [⟨"a", 1, 2, "EA", ""⟩] (by decide),
    itemOps_out_of_range_noop.2.2 3 [⟨"a", 1, 2, "EA", ""⟩]⟩

/-- C8.  A DELETE on the suppliers, clients, or item-templates collection
with a key matching no record succeeds with status 200 and returns the
collection unchanged (never a 404 — the handlers have no not-found
branch), and deleting the same key twice yields the same collection as
deleting it once. -/
theorem delete_missing_key_idempotent :
    (∀ (coll : List Supplier) (key : String),
        (∀ r ∈ coll, r.companyName ≠ key) → deleteSupplier coll key = (200, coll)) ∧
    (∀ (coll : List Supplier) (key : String),
        deleteSupplier (deleteSupplier coll key).2 key = deleteSupplier coll key) ∧
    (∀ (coll : List Client) (key : String),
        (∀ r ∈ coll, r.name ≠ key) → deleteClient coll key = (200, coll)) ∧
    (∀ (coll : List Client) (key : String),
        deleteClient (deleteClient coll key).2 key = deleteClient coll key) ∧
    (∀ (coll : List Item) (key : String),
        (∀ r ∈ coll, r.name ≠ key) → deleteItemTemplate coll key = (200, coll)) ∧
    (∀ (coll : List Item) (key : String),
        deleteItemTemplate (deleteItemTemplate coll key).2 key =
          deleteItemTemplate coll key) := by
  refine ⟨?_, ?_, ?_, ?_, ?_, ?_⟩
  · intro coll key h
    have : ∀ r ∈ coll, (r.companyName != key) = true := by
      intro r hr; simpa using h r hr
    simp [deleteSupplier, List.filter_eq_self.mpr this]
  · intro coll key
    simp [deleteSupplier, List.filter_filter]
  · intro coll key h
    have : ∀ r ∈ coll, (r.name != key) = true := by
      intro r hr; simpa using h r hr
    simp [deleteClient, List.filter_eq_self.mpr this]
  · intro coll key
    simp [deleteClient, List.filter_filter]
  · intro coll key h
    have : ∀ r ∈ coll, (r.name != key) = true := by
      intro r hr; simpa using h r hr
    simp [deleteItemTemplate, List.filter_eq_self.mpr this]
  · intro coll key
    simp [deleteItemTemplate, List.filter_filter]

/-- C8 witness: deleting the missing key "B" from singleton collections
keyed "A" returns 200 with the collections unchanged, via the claim
theorem. -/
theorem delete_missing_key_idempotent_witness :
    (∀ r ∈ ([{ DEFAULT_SUPPLIER with companyName := "A" }] : List Supplier),
        r.companyName ≠ "B") ∧
    deleteSupplier [{ DEFAULT_SUPPLIER with companyName := "A" }] "B" =
      (200, [{ DEFAULT_SUPPLIER with companyName := "A" }]) ∧
    deleteClient [⟨"A", "", "", ""⟩] "B" = (200, [⟨"A", "", "", ""⟩]) ∧
    deleteItemTemplate [⟨"A", 1, 0, "EA", ""⟩] "B" = (200, [⟨"A", 1, 0, "EA", ""⟩]) :=
  ⟨by decide,
    delete_missing_key_idempotent.1 [{ DEFAULT_SUPPLIER with companyName := "A" }] "B"
      (by decide),
    delete_missing_key_idempotent.2.2.1 [⟨"A", "", "", ""⟩] "B" (by decide),
    delete_missing_key_idempotent.2.2.2.2.1 [⟨"A", 1, 0, "EA", ""⟩] "B" (by decide)⟩

/-! ## Estimate records (src/unnamed/part_002 lines 251-332)

A request body is its two validated fields plus the remaining JSON
payload, kept opaque.  A stored record is the body together with the
server-assigned `id`, `createdAt` and `updatedAt`; timestamps are the
request time, passed explicitly (`new Date().toISOString()` during one
request), as is the generated opaque id. -/

structure EstimateBody where
  estimateNumber : String
  clientName : String
  otherFields : List (String × String)
deriving DecidableEq

structure StoredEstimate where
  body : EstimateBody
  id : String
  createdAt : Nat
  updatedAt : Nat
deriving DecidableEq

/-- POST /estimates (lines 251-289): reject 400 when `estimateNumber` or
`clientName` is falsy; otherwise attach a fresh id and
`createdAt = updatedAt = now` and prepend (`unshift`) the record to the
user's collection, returning the record and the updated collection. -/
def postEstimate (now : Nat) (newId : String) (existingEstimates : List StoredEstimate)
    (estimateData : EstimateBody) : Except Nat (StoredEstimate × List StoredEstimate) :=
  if estimateData.estimateNumber = "" ∨ estimateData.clientName = "" then
    Except.error 400
  else
    let estimate : StoredEstimate :=
      { body := estimateData, id := newId, createdAt := now, updatedAt := now }
    Except.ok (estimate, estimate :: existingEstimates)

/-- PUT /estimates/:id (lines 292-332): 404 when no record with the id
exists; otherwise replace the record at the found index with the request
body, keeping `id` and the original `createdAt` and refreshing
`updatedAt = now`.  (The `getD 0` default is unreachable: `findIdx?`
only returns indices inside the list.) -/
def putEstimate (now : Nat) (existingEstimates : List StoredEstimate) (estimateId : String)
    (estimateData : EstimateBody) : Except Nat (StoredEstimate × List StoredEstimate) :=
  match existingEstimates.findIdx? (fun e => e.id == estimateId) with
  | none => Except.error 404
  | some i =>
      let createdAt := ((existingEstimates.get? i).map StoredEstimate.createdAt).getD 0
      let updated : StoredEstimate :=
        { body := estimateData, id := estimateId, createdAt := createdAt, updatedAt := now }
      Except.ok (updated, existingEstimates.set i updated)

/-! ## Claim theorems: estimate lifecycle -/

/-- C7.  A valid POST returns a record with `createdAt = updatedAt`
prepended to the front of the collection; a PUT whose id is absent from
the user's collection fails with 404; and a PUT at time `t2 > t1` on the
record created at `t1` replaces its fields with the new body while
preserving `id` and the original `createdAt` and setting `updatedAt`
strictly later than before. -/
theorem estimate_post_put_lifecycle :
    (∀ (now : Nat) (newId : String) (existing : List StoredEstimate) (body : EstimateBody),
        body.estimateNumber ≠ "" → body.clientName ≠ "" →
        postEstimate now newId existing body =
          Except.ok (⟨body, newId, now, now⟩, ⟨body, newId, now, now⟩ :: existing) ∧
        (⟨body, newId, now, now⟩ : StoredEstimate).createdAt =
          (⟨body, newId, now, now⟩ : StoredEstimate).updatedAt) ∧
    (∀ (now : Nat) (existing : List StoredEstimate) (eid : String) (body : EstimateBody),
        (∀ r ∈ existing, r.id ≠ eid) →
        putEstimate now existing eid body = Except.error 404) ∧
    (∀ (t1 t2 : Nat) (newId : String) (existing : List StoredEstimate)
        (body body' : EstimateBody), t1 < t2 →
        putEstimate t2 (⟨body, newId, t1, t1⟩ :: existing) newId body' =
          Except.ok (⟨body', newId, t1, t2⟩, ⟨body', newId, t1, t2⟩ :: existing) ∧
        (⟨body', newId, t1, t2⟩ : StoredEstimate).createdAt =
          (⟨body, newId, t1, t1⟩ : StoredEstimate).createdAt ∧
        (⟨body, newId, t1, t1⟩ : StoredEstimate).updatedAt <
          (⟨body', newId, t1, t2⟩ : StoredEstimate).updatedAt) := by
  refine ⟨?_, ?_, ?_⟩
  · intro now newId existing body h1 h2
    refine ⟨?_, rfl⟩
    rw [postEstimate, if_neg]
    simp [h1, h2]
  · intro now existing eid body h
    have hnone : existing.findIdx? (fun e => e.id == eid) = none :=
      List.findIdx?_eq_none_iff.mpr (fun r hr => by
        simpa [beq_eq_false_iff_ne] using h r hr)
    simp [putEstimate, hnone]
  · intro t1 t2 newId existing body body' hlt
    refine ⟨?_, rfl, hlt⟩
    simp [putEstimate, List.findIdx?_cons]

/-- C7 witness: a concrete POST at time 0 followed by a PUT at time 1,
discharged through the claim theorem. -/
theorem estimate_post_put_lifecycle_witness :
    (EstimateBody.mk "20240101-001" "acme" []).estimateNumber ≠ "" ∧
    (EstimateBody.mk "20240101-001" "acme" []).clientName ≠ "" ∧
    (0 : Nat) < 1 ∧
    postEstimate 0 "e1" [] ⟨"20240101-001", "acme", []⟩ =
      Except.ok (⟨⟨"20240101-001", "acme", []⟩, "e1", 0, 0⟩,
        [⟨⟨"20240101-001", "acme", []⟩, "e1", 0, 0⟩]) ∧
    putEstimate 1 [⟨⟨"20240101-001", "acme", []⟩, "e1", 0, 0⟩] "e1"
        ⟨"20240101-001", "acme2", []⟩ =
      Except.ok (⟨⟨"20240101-001", "acme2", []⟩, "e1", 0, 1⟩,
        [⟨⟨"20240101-001", "acme2", []⟩, "e1", 0, 1⟩]) ∧
    putEstimate 1 [] "missing" ⟨"20240101-001", "acme", []⟩ = Except.error 404 :=
  ⟨by decide, by decide, by decide,
    (estimate_post_put_lifecycle.1 0 "e1" [] ⟨"20240101-001", "acme", []⟩
      (by decide) (by decide)).1,
    (estimate_post_put_lifecycle.2.2 0 1 "e1" [] ⟨"20240101-001", "acme", []⟩
      ⟨"20240101-001", "acme2", []⟩ (by decide)).1,
    estimate_post_put_lifecycle.2.1 1 [] "missing" ⟨"20240101-001", "acme", []⟩
      (by simp)⟩

/-! ## Supplier upsert (src/unnamed/part_002 lines 97-134) -/

/-- POST /suppliers: 400 when `companyName` is falsy; otherwise replace
the first record with the same `companyName` in place
(`findIndex` + in-place assignment) or push the record at the end. -/
def postSupplier (existingSuppliers : List Supplier) (supplier : Supplier) :
    Except String (List Supplier) :=
  if supplier.companyName = "" then Except.error "Company name is required"
  else
    match existingSuppliers.findIdx? (fun s => s.companyName == supplier.companyName) with
    | some i => Except.ok (existingSuppliers.set i supplier)
    | none => Except.ok (existingSuppliers ++ [supplier])

/-- The states a user's supplier collection can actually be in: the KV
entry starts absent (read as `[]`) and is only ever written by the
save and delete handlers. -/
inductive SuppliersReachable : List Supplier → Prop where
  | init : SuppliersReachable []
  | post (coll coll' : List Supplier) (s : Supplier) :
      SuppliersReachable coll → postSupplier coll s = Except.ok coll' →
      SuppliersReachable coll'
  | del (coll : List Supplier) (key : String) :
      SuppliersReachable coll → SuppliersReachable (deleteSupplier coll key).2

/-! ### List helper lemmas -/

theorem findIdx?_start_spec {α : Type} (p : α → Bool) :
    ∀ (l : List α) (n i : Nat), List.findIdx? p l n = some i →
      n ≤ i ∧ i - n < l.length ∧
      (∀ a, l.get? (i - n) = some a → p a = true) ∧
      (∀ j, j < i - n → ∀ a, l.get? j = some a → p a = false) := by
  intro l
  induction l with
  | nil => intro n i h; rw [List.findIdx?_nil] at h; cases h
  | cons x xs ih =>
      intro n i h
      rw [List.findIdx?_cons] at h
      by_cases hx : p x = true
      · rw [if_pos hx] at h
        have hni : n = i := by simpa using h
        subst hni
        refine ⟨Nat.le_refl _, by simp, ?_, ?_⟩
        · intro a ha
          rw [Nat.sub_self, List.get?_cons_zero] at ha
          cases ha
          exact hx
        · intro j hj
          rw [Nat.sub_self] at hj
          omega
      · rw [if_neg hx] at h
        have hx' : p x = false := by revert hx; cases p x <;> simp
        obtain ⟨hn, hlen, hsat, hpre⟩ := ih (n + 1) i h
        refine ⟨by omega, by simp only [List.length_cons]; omega, ?_, ?_⟩
        · intro a ha
          have hdiff : i - n = (i - (n + 1)) + 1 := by omega
          rw [hdiff, List.get?_cons_succ] at ha
          exact hsat a ha
        · intro j hj a ha
          cases j with
          | zero =>
              rw [List.get?_cons_zero] at ha
              cases ha
              exact hx'
          | succ j' =>
              rw [List.get?_cons_succ] at ha
              exact hpre j' (by omega) a ha

theorem get?_set_self {α : Type} (l : List α) (i : Nat) (a : α) (h : i < l.length) :
    (l.set i a).get? i = some a := by
  rw [List.get?_eq_getElem?, List.getElem?_set]
  simp [h]

theorem get?_set_ne {α : Type} (l : List α) (i j : Nat) (a : α) (h : i ≠ j) :
    (l.set i a).get? j = l.get? j := by
  rw [List.get?_eq_getElem?, List.getElem?_set, if_neg h, ← List.get?_eq_getElem?]

theorem countP_set_pres {α : Type} (p : α → Bool) :
    ∀ (l : List α) (i : Nat) (a : α),
      (∀ b, l.get? i = some b → p b = p a) →
      (l.set i a).countP p = l.countP p := by
  intro l
  induction l with
  | nil => intro i a _; rfl
  | cons x xs ih =>
      intro i a h
      cases i with
      | zero =>
          rw [List.set_cons_zero, List.countP_cons, List.countP_cons,
            h x List.get?_cons_zero]
      | succ i' =>
          rw [List.set_cons_succ, List.countP_cons, List.countP_cons, ih i' a]
          intro b hb
          exact h b (by rw [List.get?_cons_succ]; exact hb)

theorem countP_unique {α : Type} (p : α → Bool) :
    ∀ (l : List α), l.countP p = 1 →
      ∀ a ∈ l, p a = true → ∀ b ∈ l, p b = true → a = b := by
  intro l
  induction l with
  | nil => intro _ a ha; cases ha
  | cons x t ih =>
      intro h a ha hpa b hb hpb
      rw [List.countP_cons] at h
      by_cases hx : p x = true
      · rw [if_pos hx] at h
        have ht : t.countP p = 0 := by omega
        have hnone : ∀ c ∈ t, ¬p c = true := List.countP_eq_zero.mp ht
        rcases List.mem_cons.mp ha with rfl | ha'
        · rcases List.mem_cons.mp hb with rfl | hb'
          · rfl
          · exact absurd hpb (hnone b hb')
        · exact absurd hpa (hnone a ha')
      · rw [if_neg hx] at h
        have ht : t.countP p = 1 := by omega
        rcases List.mem_cons.mp ha with rfl | ha'
        · exact absurd hpa hx
        · rcases List.mem_cons.mp hb with rfl | hb'
          · exact absurd hpb hx
          · exact ih ht a ha' hpa b hb' hpb

theorem mem_of_get? {α : Type} {l : List α} {i : Nat} {a : α}
    (h : l.get? i = some a) : a ∈ l := by
  rw [List.get?_eq_getElem?] at h
  obtain ⟨hlt, rfl⟩ := List.getElem?_eq_some.mp h
  exact List.getElem_mem hlt

/-- Every reachable supplier collection holds at most one record per
`companyName` (the save handler replaces instead of appending a
duplicate, and deletion only removes). -/
theorem reachable_key_unique :
    ∀ (coll : List Supplier), SuppliersReachable coll →
      ∀ key, coll.countP (fun s => s.companyName == key) ≤ 1 := by
  intro coll h
  induction h with
  | init => intro key; simp
  | post coll coll' s hr hpost ih =>
      intro key
      simp only [postSupplier] at hpost
      by_cases hempty : s.companyName = ""
      · rw [if_pos hempty] at hpost; cases hpost
      · rw [if_neg hempty] at hpost
        cases hfind : coll.findIdx? (fun r => r.companyName == s.companyName) with
        | some i =>
            rw [hfind] at hpost
            cases hpost
            obtain ⟨-, hlen, hsat, -⟩ := findIdx?_start_spec _ coll 0 i hfind
            rw [countP_set_pres]
            · exact ih key
            · intro b hb
              have hkey : b.companyName = s.companyName := by
                have := hsat b (by simpa using hb)
                simpa using this
              simp [hkey]
        | none =>
            rw [hfind] at hpost
            cases hpost
            rw [List.countP_append]
            by_cases hk : s.companyName = key
            · have h0 : coll.countP (fun r => r.companyName == key) = 0 := by
                rw [List.countP_eq_zero]
                intro a ha
                have := List.findIdx?_eq_none_iff.mp hfind a ha
                simp only [hk] at this
                simp [this]
              simp [h0, hk]
            · have h1 : List.countP (fun r => r.companyName == key) [s] = 0 := by
                simp [hk]
              rw [h1]
              have := ih key
              omega
  | del coll key' hr ih =>
      intro key
      exact le_trans ((List.filter_sublist coll).countP_le _) (ih key)

/-- After one successful save of `s`, a reachable collection holds
exactly one record with `s.companyName`. -/
theorem post_key_count (coll : List Supplier) (s : Supplier) (l1 : List Supplier)
    (hr : SuppliersReachable coll) (hne : s.companyName ≠ "")
    (hpost : postSupplier coll s = Except.ok l1) :
    l1.countP (fun r => r.companyName == s.companyName) = 1 := by
  simp only [postSupplier, if_neg hne] at hpost
  cases hfind : coll.findIdx? (fun r => r.companyName == s.companyName) with
  | some i =>
      rw [hfind] at hpost
      cases hpost
      obtain ⟨-, hlen, hsat, -⟩ := findIdx?_start_spec _ coll 0 i hfind
      simp only [Nat.sub_zero] at hlen hsat
      obtain ⟨b, hb⟩ : ∃ b, coll.get? i = some b := by
        cases hgb : coll.get? i with
        | none => exact absurd (List.get?_eq_none.mp hgb) (by omega)
        | some b => exact ⟨b, rfl⟩
      have hple : coll.countP (fun r => r.companyName == s.companyName) ≤ 1 :=
        reachable_key_unique coll hr s.companyName
      have hppos : coll.countP (fun r => r.companyName == s.companyName) ≠ 0 := by
        intro h0
        exact List.countP_eq_zero.mp h0 b (mem_of_get? hb) (hsat b hb)
      have hc : coll.countP (fun r => r.companyName == s.companyName) = 1 := by omega
      rw [countP_set_pres, hc]
      intro c hc'
      rw [hsat c hc']
      simp
  | none =>
      rw [hfind] at hpost
      cases hpost
      rw [List.countP_append]
      have h0 : coll.countP (fun r => r.companyName == s.companyName) = 0 := by
        rw [List.countP_eq_zero]
        intro a ha
        simp [List.findIdx?_eq_none_iff.mp hfind a ha]
      simp [h0]

/-- C6.  POST /suppliers with a non-empty `companyName` replaces the
first record with the same key in place — the replaced position holds
the new payload, every other position is untouched, the length is
unchanged, and every earlier position has a different key — or appends
at the end when no record matches; and on every reachable user
collection, posting the same `companyName` twice leaves exactly one
record with that key, holding the second payload's values, with the
collection length unchanged from before the second POST. -/
theorem postSupplier_upsert :
    (∀ (coll : List Supplier) (s : Supplier) (i : Nat),
        s.companyName ≠ "" →
        coll.findIdx? (fun r => r.companyName == s.companyName) = some i →
        postSupplier coll s = Except.ok (coll.set i s) ∧
        (coll.set i s).length = coll.length ∧
        (coll.set i s).get? i = some s ∧
        (∀ j, j ≠ i → (coll.set i s).get? j = coll.get? j) ∧
        (∀ j, j < i → ∀ r, coll.get? j = some r → r.companyName ≠ s.companyName)) ∧
    (∀ (coll : List Supplier) (s : Supplier),
        s.companyName ≠ "" →
        (∀ r ∈ coll, r.companyName ≠ s.companyName) →
        postSupplier coll s = Except.ok (coll ++ [s])) ∧
    (∀ (coll : List Supplier) (s1 s2 : Supplier) (l1 l2 : List Supplier),
        SuppliersReachable coll →
        s1.companyName ≠ "" → s2.companyName = s1.companyName →
        postSupplier coll s1 = Except.ok l1 →
        postSupplier l1 s2 = Except.ok l2 →
        l2.length = l1.length ∧
        l2.countP (fun r => r.companyName == s1.companyName) = 1 ∧
        ∀ r ∈ l2, r.companyName = s1.companyName → r = s2) := by
  refine ⟨?_, ?_, ?_⟩
  · intro coll s i hne hfind
    obtain ⟨-, hlen, hsat, hpre⟩ := findIdx?_start_spec _ coll 0 i hfind
    simp only [Nat.sub_zero] at hlen hsat hpre
    refine ⟨?_, List.length_set coll i s, get?_set_self coll i s hlen,
        fun j hj => get?_set_ne coll i j s (fun he => hj he.symm),
        fun j hj r hrq => ?_⟩
    · simp only [postSupplier, if_neg hne, hfind]
    · have := hpre j hj r hrq
      simpa using this
  · intro coll s hne h
    have hfind : coll.findIdx? (fun r => r.companyName == s.companyName) = none :=
      List.findIdx?_eq_none_iff.mpr (fun r hr => by simpa using h r hr)
    simp only [postSupplier, if_neg hne, hfind]
  · intro coll s1 s2 l1 l2 hr hne1 hk hpost1 hpost2
    have hc1 : l1.countP (fun r => r.companyName == s1.companyName) = 1 :=
      post_key_count coll s1 l1 hr hne1 hpost1
    have hne2 : s2.companyName ≠ "" := by rw [hk]; exact hne1
    simp only [postSupplier] at hpost2
    rw [if_neg hne2] at hpost2
    rw [hk] at hpost2
    cases hfind2 : l1.findIdx? (fun r => r.companyName == s1.companyName) with
    | none =>
        exfalso
        have hall := List.findIdx?_eq_none_iff.mp hfind2
        have h0 : l1.countP (fun r => r.companyName == s1.companyName) = 0 := by
          rw [List.countP_eq_zero]
          intro a ha
          simp [hall a ha]
        omega
    | some i2 =>
        rw [hfind2] at hpost2
        cases hpost2
        obtain ⟨-, hlen2, hsat2, -⟩ := findIdx?_start_spec _ l1 0 i2 hfind2
        simp only [Nat.sub_zero] at hlen2 hsat2
        have hps2 : ((fun r => r.companyName == s1.companyName) s2 : Bool) = true := by
          simp [hk]
        have hcount : (l1.set i2 s2).countP (fun r => r.companyName == s1.companyName) = 1 := by
          rw [countP_set_pres]
          · exact hc1
          · intro b hb
            rw [hsat2 b hb]
            simp [hk]
        refine ⟨List.length_set l1 i2 s2, hcount, ?_⟩
        intro r hrmem hrkey
        have hmem2 : s2 ∈ l1.set i2 s2 :=
          mem_of_get? (get?_set_self l1 i2 s2 hlen2)
        exact countP_unique _ _ hcount r hrmem (by simp [hrkey]) s2 hmem2 hps2

/-- C6 witness: saving key "X" into the empty (reachable) collection and
then saving a different payload with the same key leaves exactly one
record with key "X", discharged through the claim theorem. -/
theorem postSupplier_upsert_witness :
    SuppliersReachable ([] : List Supplier) ∧
    (⟨"n1", "X", "", "", "", "", "", "", "", "", "", none, "", ""⟩ : Supplier).companyName ≠ "" ∧
    postSupplier [] ⟨"n1", "X", "", "", "", "", "", "", "", "", "", none, "", ""⟩ =
      Except.ok [⟨"n1", "X", "", "", "", "", "", "", "", "", "", none, "", ""⟩] ∧
    postSupplier [⟨"n1", "X", "", "", "", "", "", "", "", "", "", none, "", ""⟩]
        ⟨"n2", "X", "", "", "", "", "", "", "", "", "", none, "", ""⟩ =
      Except.ok [⟨"n2", "X", "", "", "", "", "", "", "", "", "", none, "", ""⟩] ∧
    ([⟨"n2", "X", "", "", "", "", "", "", "", "", "", none, "", ""⟩] : List Supplier).countP
        (fun r => r.companyName == "X") = 1 :=
  ⟨SuppliersReachable.init, by decide, rfl, rfl,
    (postSupplier_upsert.2.2 []
        ⟨"n1", "X", "", "", "", "", "", "", "", "", "", none, "", ""⟩
        ⟨"n2", "X", "", "", "", "", "", "", "", "", "", none, "", ""⟩
        [⟨"n1", "X", "", "", "", "", "", "", "", "", "", none, "", ""⟩]
        [⟨"n2", "X", "", "", "", "", "", "", "", "", "", none, "", ""⟩]
        SuppliersReachable.init (by decide) (by decide) rfl rfl).2.1⟩

/-! ## Korean currency-words formatters

Three UI implementations: `numberToKorean` in src/unnamed/part_003
lines 221-273, `formatKoreanCurrency` in src/unnamed/part_004 lines
195-235, and `numberToKorean` in src/unnamed/part_006 lines 387-431.
JS out-of-bounds array access yields `undefined`, which string
concatenation renders as "undefined"; `jsIndex` embeds that. -/

/-- JS `table[i]` coerced to a string: the element, or "undefined" when
out of bounds. -/
def jsIndex (table : List String) (i : Nat) : String :=
  table.getD i "undefined"

/-- part_003 digit table (index 0 is the unused "영"). -/
def digits_003 : List String :=
  ["영", "일", "이", "삼", "사", "오", "육", "칠", "팔", "구"]

/-- part_003 base-10000 unit table. -/
def units_003 : List String := ["", "만", "억", "조", "경"]

/-- part_004 digit table (same content as part_003's). -/
def digits_004 : List String :=
  ["영", "일", "이", "삼", "사", "오", "육", "칠", "팔", "구"]

/-- part_004 base-10000 unit table. -/
def units_004 : List String := ["", "만", "억", "조", "경"]

/-- part_006 digit table (index 0 is the unused empty string). -/
def digits_006 : List String :=
  ["", "일", "이", "삼", "사", "오", "육", "칠", "팔", "구"]

/-- part_006 base-10000 unit table: no "경" entry. -/
def units_006 : List String := ["", "만", "억", "조"]

/-- part_003 `partStr` for one base-10000 group (if/else style: a digit
of exactly 1 before 천/백/십 is elided). -/
def partString_003 (part : Nat) : String :=
  let thousands := part / 1000
  let hundreds := part % 1000 / 100
  let tens := part % 100 / 10
  let ones := part % 10
  (if thousands > 0 then
      if thousands = 1 then "천" else jsIndex digits_003 thousands ++ "천"
    else "") ++
  (if hundreds > 0 then
      if hundreds = 1 then "백" else jsIndex digits_003 hundreds ++ "백"
    else "") ++
  (if tens > 0 then
      if tens = 1 then "십" else jsIndex digits_003 tens ++ "십"
    else "") ++
  (if ones > 0 then jsIndex digits_003 ones else "")

/-- part_004 `partStr` for one group (conditional-expression style,
same elision on 천/백/십). -/
def partString_004 (part : Nat) : String :=
  let thousands := part / 1000
  let hundreds := part % 1000 / 100
  let tens := part % 100 / 10
  let ones := part % 10
  (if thousands > 0 then
      (if thousands = 1 then "" else jsIndex digits_004 thousands) ++ "천"
    else "") ++
  (if hundreds > 0 then
      (if hundreds = 1 then "" else jsIndex digits_004 hundreds) ++ "백"
    else "") ++
  (if tens > 0 then
      (if tens = 1 then "" else jsIndex digits_004 tens) ++ "십"
    else "") ++
  (if ones > 0 then jsIndex digits_004 ones else "")

/-- part_006 `partStr` for one group (conditional-expression style for
천/백, if/else style for 십; same elision). -/
def partString_006 (part : Nat) : String :=
  let thousands := part / 1000
  let hundreds := part % 1000 / 100
  let tens := part % 100 / 10
  let ones := part % 10
  (if thousands > 0 then
      (if thousands = 1 then "" else jsIndex digits_006 thousands) ++ "천"
    else "") ++
  (if hundreds > 0 then
      (if hundreds = 1 then "" else jsIndex digits_006 hundreds) ++ "백"
    else "") ++
  (if tens > 0 then
      if tens = 1 then "십" else jsIndex digits_006 tens ++ "십"
    else "") ++
  (if ones > 0 then jsIndex digits_006 ones else "")

/-- part_003 group loop: process base-10000 groups low-to-high,
prepending `partStr + units[unitIndex]` for each nonzero group. -/
def koreanGroups_003 (num unitIndex : Nat) : String :=
  if h : num = 0 then ""
  else
    koreanGroups_003 (num / 10000) (unitIndex + 1) ++
      (if num % 10000 > 0 then
        partString_003 (num % 10000) ++ jsIndex units_003 unitIndex
      else "")
termination_by num
decreasing_by exact Nat.div_lt_self (Nat.pos_of_ne_zero h) (by omega)

/-- part_004 group loop. -/
def koreanGroups_004 (num unitIndex : Nat) : String :=
  if h : num = 0 then ""
  else
    koreanGroups_004 (num / 10000) (unitIndex + 1) ++
      (if num % 10000 > 0 then
        partString_004 (num % 10000) ++ jsIndex units_004 unitIndex
      else "")
termination_by num
decreasing_by exact Nat.div_lt_self (Nat.pos_of_ne_zero h) (by omega)

/-- part_006 group loop. -/
def koreanGroups_006 (num unitIndex : Nat) : String :=
  if h : num = 0 then ""
  else
    koreanGroups_006 (num / 10000) (unitIndex + 1) ++
      (if num % 10000 > 0 then
        partString_006 (num % 10000) ++ jsIndex units_006 unitIndex
      else "")
termination_by num
decreasing_by exact Nat.div_lt_self (Nat.pos_of_ne_zero h) (by omega)

/-- part_003 `numberToKorean`. -/
def numberToKorean_003 (num : Nat) : String :=
  if num = 0 then "영원정" else koreanGroups_003 num 0 ++ "원정"

/-- part_004 `formatKoreanCurrency`. -/
def formatKoreanCurrency_004 (value : Nat) : String :=
  if value = 0 then "영원정" else koreanGroups_004 value 0 ++ "원정"

/-- part_006 `numberToKorean`. -/
def numberToKorean_006 (num : Nat) : String :=
  if num = 0 then "영원정" else koreanGroups_006 num 0 ++ "원정"

/-! ### Formatter agreement lemmas -/

/-- The part_006 and part_003 digit tables agree on every index actually
used (all digit values are positive when looked up; out-of-range
indices give "undefined" in both). -/
theorem jsIndex_digits_006_eq (t : Nat) (ht : 0 < t) :
    jsIndex digits_006 t = jsIndex digits_003 t := by
  cases t with
  | zero => omega
  | succ n => rfl

theorem jsIndex_digits_004_eq (t : Nat) :
    jsIndex digits_004 t = jsIndex digits_003 t := rfl

/-- The unit tables agree below index 4 (the part_006 table just lacks
"경"). -/
theorem jsIndex_units_006_eq : ∀ k, k < 4 → jsIndex units_006 k = jsIndex units_003 k := by
  decide

theorem jsIndex_units_004_eq (k : Nat) : jsIndex units_004 k = jsIndex units_003 k := rfl

theorem chunk_ternary_eq (t : Nat) (u : String) :
    (if t > 0 then (if t = 1 then "" else jsIndex digits_006 t) ++ u else "") =
    (if t > 0 then (if t = 1 then "" else jsIndex digits_003 t) ++ u else "") := by
  by_cases h0 : t > 0
  · rw [if_pos h0, if_pos h0]
    by_cases h1 : t = 1
    · rw [if_pos h1, if_pos h1]
    · rw [if_neg h1, if_neg h1, jsIndex_digits_006_eq t h0]
  · rw [if_neg h0, if_neg h0]

theorem chunk_ifelse_eq (t : Nat) (u : String) :
    (if t > 0 then if t = 1 then u else jsIndex digits_006 t ++ u else "") =
    (if t > 0 then if t = 1 then u else jsIndex digits_003 t ++ u else "") := by
  by_cases h0 : t > 0
  · rw [if_pos h0, if_pos h0]
    by_cases h1 : t = 1
    · rw [if_pos h1, if_pos h1]
    · rw [if_neg h1, if_neg h1, jsIndex_digits_006_eq t h0]
  · rw [if_neg h0, if_neg h0]

/-- The two source styles of a digit chunk (`if/else` around the whole
suffix vs conditional digit prepended to the suffix) render
identically. -/
theorem chunk_styles_eq (d : List String) (t : Nat) (u : String) :
    (if t > 0 then (if t = 1 then "" else jsIndex d t) ++ u else "") =
    (if t > 0 then if t = 1 then u else jsIndex d t ++ u else "") := by
  by_cases h0 : t > 0
  · rw [if_pos h0, if_pos h0]
    by_cases h1 : t = 1
    · rw [if_pos h1, if_pos h1]
      rfl
    · rw [if_neg h1, if_neg h1]
  · rw [if_neg h0, if_neg h0]

theorem chunk_ones_eq (t : Nat) :
    (if t > 0 then jsIndex digits_006 t else "") =
    (if t > 0 then jsIndex digits_003 t else "") := by
  by_cases h0 : t > 0
  · rw [if_pos h0, if_pos h0, jsIndex_digits_006_eq t h0]
  · rw [if_neg h0, if_neg h0]

/-- All three per-group renderings are extensionally equal; in
particular the leading-1 elision before 천 is applied identically. -/
theorem partString_006_eq_003 (p : Nat) : partString_006 p = partString_003 p := by
  dsimp only [partString_006, partString_003]
  rw [chunk_ternary_eq, chunk_styles_eq, chunk_ternary_eq, chunk_styles_eq,
    chunk_ifelse_eq, chunk_ones_eq]

theorem partString_004_eq_003 (p : Nat) : partString_004 p = partString_003 p := by
  dsimp only [partString_004, partString_003]
  rw [show digits_004 = digits_003 from rfl]
  rw [chunk_styles_eq, chunk_styles_eq, chunk_styles_eq]

theorem koreanGroups_004_eq_003 : ∀ num k : Nat, koreanGroups_004 num k = koreanGroups_003 num k := by
  intro num
  induction num using Nat.strong_induction_on with
  | _ num ih =>
      intro k
      rw [koreanGroups_004, koreanGroups_003]
      by_cases h : num = 0
      · rw [dif_pos h, dif_pos h]
      · rw [dif_neg h, dif_neg h,
          ih (num / 10000) (Nat.div_lt_self (Nat.pos_of_ne_zero h) (by omega)) (k + 1)]
        congr 1
        by_cases hp : num % 10000 > 0
        · rw [if_pos hp, if_pos hp, partString_004_eq_003, jsIndex_units_004_eq]
        · rw [if_neg hp, if_neg hp]

theorem koreanGroups_006_eq_003 :
    ∀ num k : Nat, num < 10000 ^ (4 - k) → koreanGroups_006 num k = koreanGroups_003 num k := by
  intro num
  induction num using Nat.strong_induction_on with
  | _ num ih =>
      intro k hbound
      rw [koreanGroups_006, koreanGroups_003]
      by_cases h : num = 0
      · rw [dif_pos h, dif_pos h]
      · have hk3 : k ≤ 3 := by
          by_contra hgt
          have h40 : 4 - k = 0 := by omega
          rw [h40, pow_zero] at hbound
          omega
        have hrec : num / 10000 < 10000 ^ (4 - (k + 1)) := by
          have h4k : 4 - k = (4 - (k + 1)) + 1 := by omega
          rw [h4k, pow_succ] at hbound
          exact (Nat.div_lt_iff_lt_mul (by norm_num)).mpr hbound
        rw [dif_neg h, dif_neg h,
          ih (num / 10000) (Nat.div_lt_self (Nat.pos_of_ne_zero h) (by omega)) (k + 1) hrec]
        congr 1
        by_cases hp : num % 10000 > 0
        · rw [if_pos hp, if_pos hp, partString_006_eq_003,
            jsIndex_units_006_eq k (by omega)]
        · rw [if_neg hp, if_neg hp]

/-! ## Claim theorems: Korean formatter agreement -/

/-- C3 counterexample.  There is no input on which the embedded group
renderings of the three formatter implementations disagree — all three
elide the leading 일 before 천 (and before 백 and 십) identically, so
the disagreement the claim asserts does not exist.  (The leading-1
elision is applied entirely inside the per-group rendering; the
surrounding loops differ only in the base-10000 unit tables.) -/
theorem koreanFormatters_no_elision_disagreement :
    ¬ ∃ p : Nat,
        partString_003 p ≠ partString_006 p ∨
        partString_003 p ≠ partString_004 p ∨
        partString_004 p ≠ partString_006 p := by
  rintro ⟨p, hp | hp | hp⟩
  · exact hp (partString_006_eq_003 p).symm
  · exact hp (partString_004_eq_003 p).symm
  · exact hp ((partString_004_eq_003 p).trans (partString_006_eq_003 p).symm)

/-- C3 amended.  The three embedded Korean currency-words formatters
apply the leading-1 elision identically (including before 천); the
part_003 and part_004 formatters are extensionally equal on all inputs,
and the part_006 formatter agrees with them on every input below
10000^4 = 10^16 — the implementations differ only in their base-10000
unit tables (part_006 lacks the "경" entry), not in any elision rule. -/
theorem koreanFormatters_agree :
    (∀ n : Nat, formatKoreanCurrency_004 n = numberToKorean_003 n) ∧
    (∀ n : Nat, n < 10000 ^ 4 → numberToKorean_006 n = numberToKorean_003 n) := by
  constructor
  · intro n
    rw [formatKoreanCurrency_004, numberToKorean_003]
    by_cases h : n = 0
    · rw [if_pos h, if_pos h]
    · rw [if_neg h, if_neg h, koreanGroups_004_eq_003]
  · intro n hn
    rw [numberToKorean_006, numberToKorean_003]
    by_cases h : n = 0
    · rw [if_pos h, if_pos h]
    · rw [if_neg h, if_neg h, koreanGroups_006_eq_003 n 0 (by simpa using hn)]

/-- C3 amended witness: agreement at the concrete input 1234567,
discharged through the claim theorem. -/
theorem koreanFormatters_agree_witness :
    (1234567 : Nat) < 10000 ^ 4 ∧
    formatKoreanCurrency_004 1234567 = numberToKorean_003 1234567 ∧
    numberToKorean_006 1234567 = numberToKorean_003 1234567 :=
  ⟨by norm_num, koreanFormatters_agree.1 1234567,
    koreanFormatters_agree.2 1234567 (by norm_num)⟩
